import Mathlib

/-!
Verification development for the orbit-worker service (src/index.js).

The worker exposes `POST /process`: it validates the request body, downloads
an audio file, transcribes it with whisper, asks the Gemini API for a JSON
summary embedded in free text, and persists the results to the `entries`
table of the backing store.  We embed the handler as a pure function from
the request body and a `World` (the results the external collaborators
would return) to the HTTP response together with the trace of externally
visible events (network calls, temp-file writes/removals, store updates).
-/

set_option maxRecDepth 4000

/-- The characters `\x7b` and `\x7d` (left/right curly brace). -/
def lbrace : Char := Char.ofNat 123

def rbrace : Char := Char.ofNat 125

/-- JavaScript/JSON values, as exchanged by the worker: the parsed Gemini
answer, the fields written to the store, and unrecognised whisper output.
Numbers are restricted to integers; the worker never exchanges fractional
numbers. -/
inductive JValue : Type where
  | null : JValue
  | bool : Bool → JValue
  | num : Int → JValue
  | str : String → JValue
  | arr : List JValue → JValue
  | obj : List (String × JValue) → JValue

/-- Model of the `JSON.parse` builtin, over the JSON fragment the worker
exchanges (strings with the simple escapes, arrays, objects, literals,
integer numbers).  Whitespace skipping. -/
def skipWs : List Char → List Char
  | [] => []
  | c :: cs =>
    if c = ' ' ∨ c = '\n' ∨ c = '\t' ∨ c = '\r' then skipWs cs else c :: cs

/-- String body after the opening quote: returns the decoded content and the
input remaining after the closing quote.  Simple escapes only; raw control
characters are rejected, as `JSON.parse` rejects them. -/
def parseStringBody : List Char → Option (List Char × List Char)
  | [] => none
  | c :: cs =>
    if c = '"' then some ([], cs)
    else if c = '\\' then
      match cs with
      | [] => none
      | e :: cs2 =>
        let dec : Option Char :=
          if e = '"' then some '"'
          else if e = '\\' then some '\\'
          else if e = '/' then some '/'
          else if e = 'n' then some '\n'
          else if e = 't' then some '\t'
          else if e = 'r' then some '\r'
          else if e = 'b' then some (Char.ofNat 8)
          else if e = 'f' then some (Char.ofNat 12)
          else none
        match dec with
        | some d => (parseStringBody cs2).map (fun p => (d :: p.1, p.2))
        | none => none
    else if c.toNat < 32 then none
    else (parseStringBody cs).map (fun p => (c :: p.1, p.2))

/-- Decimal digit run folded left-to-right into a number. -/
def parseNumDigits (acc : Nat) : List Char → Nat × List Char
  | [] => (acc, [])
  | c :: cs =>
    if c.isDigit then parseNumDigits (acc * 10 + (c.toNat - 48)) cs
    else (acc, c :: cs)

/-- The four states of the recursive-descent model of `JSON.parse`:
a value, an object body after `\x7b`, the member loop with its
accumulator, the element loop with its accumulator. -/
inductive PTask : Type where
  | val : List Char → PTask
  | objBody : List Char → PTask
  | members : List Char → List (String × JValue) → PTask
  | arrBody : List Char → PTask
  | elems : List Char → List JValue → PTask

/-- Model of `JSON.parse`: parse one JSON value over the JSON fragment the
worker exchanges.  The fuel bounds the recursion depth; `jsonParse`
supplies more fuel than any input can use, so the `0` case is never the
reason a parse fails. -/
def parseStep : Nat → PTask → Option (JValue × List Char)
  | 0, _ => none
  | fuel + 1, t =>
    match t with
    | PTask.val s =>
      match skipWs s with
      | [] => none
      | c :: cs =>
        if c = '"' then
          (parseStringBody cs).map (fun p => (JValue.str (String.mk p.1), p.2))
        else if c = lbrace then parseStep fuel (PTask.objBody cs)
        else if c = '[' then parseStep fuel (PTask.arrBody cs)
        else if c = 't' then
          match cs with
          | 'r' :: 'u' :: 'e' :: rest => some (JValue.bool true, rest)
          | _ => none
        else if c = 'f' then
          match cs with
          | 'a' :: 'l' :: 's' :: 'e' :: rest => some (JValue.bool false, rest)
          | _ => none
        else if c = 'n' then
          match cs with
          | 'u' :: 'l' :: 'l' :: rest => some (JValue.null, rest)
          | _ => none
        else if c = '-' then
          match cs with
          | d :: ds =>
            if d.isDigit then
              let p := parseNumDigits (d.toNat - 48) ds
              some (JValue.num (-(p.1 : Int)), p.2)
            else none
          | [] => none
        else if c.isDigit then
          let p := parseNumDigits (c.toNat - 48) cs
          some (JValue.num (p.1 : Int), p.2)
        else none
    | PTask.objBody s =>
      match skipWs s with
      | [] => none
      | c :: cs =>
        if c = rbrace then some (JValue.obj [], cs)
        else parseStep fuel (PTask.members (c :: cs) [])
    | PTask.members s acc =>
      match skipWs s with
      | '"' :: cs =>
        match parseStringBody cs with
        | none => none
        | some (key, afterKey) =>
          match skipWs afterKey with
          | ':' :: afterColon =>
            match parseStep fuel (PTask.val afterColon) with
            | none => none
            | some (v, afterVal) =>
              let acc2 := acc ++ [(String.mk key, v)]
              match skipWs afterVal with
              | ',' :: rest => parseStep fuel (PTask.members rest acc2)
              | c :: rest =>
                if c = rbrace then some (JValue.obj acc2, rest) else none
              | [] => none
          | _ => none
      | _ => none
    | PTask.arrBody s =>
      match skipWs s with
      | [] => none
      | c :: cs =>
        if c = ']' then some (JValue.arr [], cs)
        else parseStep fuel (PTask.elems (c :: cs) [])
    | PTask.elems s acc =>
      match parseStep fuel (PTask.val s) with
      | none => none
      | some (v, afterVal) =>
        let acc2 := acc ++ [v]
        match skipWs afterVal with
        | ',' :: rest => parseStep fuel (PTask.elems rest acc2)
        | ']' :: rest => some (JValue.arr acc2, rest)
        | _ => none

/-- Model of `JSON.parse(s)`: the whole input must be a single JSON value,
up to surrounding whitespace.  `none` models the `SyntaxError` throw. -/
def jsonParse (s : List Char) : Option JValue :=
  match parseStep (3 * s.length + 8) (PTask.val s) with
  | some (v, rest) => if skipWs rest = [] then some v else none
  | none => none

/-- Last-wins field lookup, as `JSON.parse` keeps the last duplicate key and
JavaScript property access then reads it.  Property access on a non-object
value yields `undefined` (`none`); the worker only ever reads fields of the
parsed object. -/
def lookupLast : List (String × JValue) → String → Option JValue
  | [], _ => none
  | kv :: rest, k =>
    match lookupLast rest k with
    | some r => some r
    | none => if kv.1 = k then some kv.2 else none

/-- JavaScript property read `v.k` on a parsed JSON value. -/
def jsGetField (v : JValue) (k : String) : Option JValue :=
  match v with
  | JValue.obj fs => lookupLast fs k
  | _ => none

mutual

/-- Model of the `JSON.stringify` builtin on `JValue` (used by the code at
line 67 as the best-effort coercion of unrecognised whisper output).  Quote
and backslash are escaped; the values the worker meets contain no control
characters. -/
def jsonStringify : JValue → String
  | JValue.null => "null"
  | JValue.bool b => cond b "true" "false"
  | JValue.num n => toString n
  | JValue.str s =>
      "\"" ++ String.mk (s.data.flatMap fun c =>
        if c = '"' ∨ c = '\\' then ['\\', c] else [c]) ++ "\""
  | JValue.arr xs =>
      "[" ++ String.intercalate "," (jsonStringifyList xs) ++ "]"
  | JValue.obj fs =>
      String.mk [lbrace] ++
        String.intercalate "," (jsonStringifyFields fs) ++
        String.mk [rbrace]

def jsonStringifyList : List JValue → List String
  | [] => []
  | v :: vs => jsonStringify v :: jsonStringifyList vs

def jsonStringifyFields : List (String × JValue) → List String
  | [] => []
  | (k, v) :: fs =>
      ("\"" ++ k ++ "\":" ++ jsonStringify v) :: jsonStringifyFields fs

end

/-- Index of the first occurrence of `c`, if any. -/
def firstIdxOf (c : Char) : List Char → Option Nat
  | [] => none
  | a :: as => if a = c then some 0 else (firstIdxOf c as).map (· + 1)

/-- Index of the last occurrence of `c`, if any. -/
def lastIdxOf (c : Char) : List Char → Option Nat
  | [] => none
  | a :: as =>
    match lastIdxOf c as with
    | some j => some (j + 1)
    | none => if a = c then some 0 else none

/-- Model of `responseText.match(/\x7b[\s\S]*\x7d/)` (src/index.js:102).
The regex is greedy, so a successful match runs from the first `\x7b` that
has a `\x7d` after it, to the last `\x7d` of the whole text; equivalently a
match exists iff the first `\x7b` precedes the last `\x7d`. -/
def jsonMatchExtract (s : List Char) : Option (List Char) :=
  match firstIdxOf lbrace s, lastIdxOf rbrace s with
  | some i, some j => if i < j then some ((s.drop i).take (j + 1 - i)) else none
  | _, _ => none

/-- Model of `transcriptText.slice(0, 200)` (ASCII transcripts, so UTF-16
units coincide with characters). -/
def jsSlice200 (s : String) : String := String.mk (s.data.take 200)

/-- src/index.js:102-106: extract the first brace-delimited region and
`JSON.parse` it; with no match, fall back to the truncated transcript and an
empty insight list.  A region that fails to parse makes `JSON.parse` throw
(`Except.error`) — there is no fallback on a parse failure. -/
def computeParsed (responseText transcript : String) : Except String JValue :=
  match jsonMatchExtract responseText.data with
  | some m =>
    match jsonParse m with
    | some v => Except.ok v
    | none => Except.error "Unexpected token in JSON"
  | none =>
    Except.ok (JValue.obj
      [("summary", JValue.str (jsSlice200 transcript)), ("insights", JValue.arr [])])

/-- One whisper segment; `speech` and `text` are absent (`none`) or a
string, matching the shapes the code sniffs at src/index.js:66. -/
structure Segment : Type where
  speech : Option String
  text : Option String

/-- Whisper output (src/index.js:49): a plain string, an array of segments,
or some other JSON-like value. -/
inductive WhisperOut : Type where
  | str : String → WhisperOut
  | arr : List Segment → WhisperOut
  | other : JValue → WhisperOut

/-- JavaScript `a || b` on an optional string: an absent or empty string is
falsy. -/
def jsOr (a : Option String) (b : String) : String :=
  match a with
  | some s => if s = "" then b else s
  | none => b

/-- `t.speech || t.text || ''` (src/index.js:66). -/
def segPiece (t : Segment) : String := jsOr t.speech (jsOr t.text "")

/-- src/index.js:65-67: normalize the whisper output to a single string. -/
def transcriptText : WhisperOut → String
  | WhisperOut.str s => s
  | WhisperOut.arr segs => String.intercalate " " (segs.map segPiece)
  | WhisperOut.other v => jsonStringify v

/-- `transcript.length` (src/index.js:132): string length, or array length;
on `null` the read throws, on another object it is `undefined`. -/
def transcriptLength : WhisperOut → Except String (Option Nat)
  | WhisperOut.str s => Except.ok (some s.length)
  | WhisperOut.arr segs => Except.ok (some segs.length)
  | WhisperOut.other JValue.null =>
      Except.error "Cannot read properties of null (reading length)"
  | WhisperOut.other _ => Except.ok none

/-- `parsed.summary.length` (src/index.js:133): reading `.length` of a
missing (`undefined`) or `null` field throws; of a string or array it is
the length; of any other value it is `undefined`. -/
def jsLength : Option JValue → Except String (Option Nat)
  | none => Except.error "Cannot read properties of undefined (reading length)"
  | some JValue.null => Except.error "Cannot read properties of null (reading length)"
  | some (JValue.str s) => Except.ok (some s.length)
  | some (JValue.arr xs) => Except.ok (some xs.length)
  | some _ => Except.ok none

/-- The optional chain
`geminiData?.candidates?.[0]?.content?.parts?.[0]?.text ?? ""`
(src/index.js:99) followed by `responseText.match` (line 102): a missing or
null link yields `""`; a present non-string `text` would make the later
`.match` call throw. -/
def jIndex (n : Nat) (v : JValue) : Option JValue :=
  match v with
  | JValue.arr xs => xs.get? n
  | _ => none

def computeResponseText (body : JValue) : Except String String :=
  match jsGetField body "candidates" |>.bind (jIndex 0)
      |>.bind (fun v => jsGetField v "content")
      |>.bind (fun v => jsGetField v "parts")
      |>.bind (jIndex 0)
      |>.bind (fun v => jsGetField v "text") with
  | none => Except.ok ""
  | some JValue.null => Except.ok ""
  | some (JValue.str s) => Except.ok s
  | some _ => Except.error "responseText.match is not a function"

/-- The request body of `POST /process` (src/index.js:26).  A field is
`none` when absent; JavaScript truthiness makes the empty string count as
missing in the validation. -/
structure Request : Type where
  entry_id : Option String
  audio_url : Option String
  user_id : Option String

/-- JavaScript truthiness of an optional string field. -/
def truthy : Option String → Bool
  | some s => s ≠ ""
  | none => false

/-- The `fetch(audio_url)` response: `ok` is true for 2xx statuses. -/
structure FetchResp : Type where
  ok : Bool
  status : Nat

/-- The Gemini `fetch` response: HTTP status and the decoded JSON body. -/
structure GeminiResp : Type where
  ok : Bool
  status : Nat
  body : JValue

/-- Results the external collaborators return during one invocation.
`Except.error m` models a rejected promise / thrown error with message `m`.
`updateCompleted` / `updateFailed` are the `error` fields returned by the
two supabase updates (`none` = success). -/
structure World : Type where
  fetch : Except String FetchResp
  whisper : Except String WhisperOut
  gemini : Except String GeminiResp
  updateCompleted : Option String
  updateFailed : Option String

/-- Externally visible events of one invocation, in order. -/
inductive Event : Type where
  | fetchAudio : String → Event
  | fileWrite : String → Event
  | whisperCall : String → Event
  | fileUnlink : String → Event
  | geminiCall : Event
  /-- The success-path supabase update (src/index.js:113-121); the flag
  records whether the store accepted it. -/
  | updateCompleted : String → String → Option JValue → Option JValue → Bool → Event
  /-- The catch-path `status = "failed"` update (src/index.js:141-144). -/
  | updateFailedStatus : Option String → Bool → Event

/-- The HTTP response of the handler. -/
inductive HttpResponse : Type where
  /-- `res.json({success, transcript_length, summary_length})`; a length is
  `none` when the JavaScript value was `undefined`. -/
  | ok200 : Bool → Option Nat → Option Nat → HttpResponse
  | badRequest : String → HttpResponse
  | serverError : String → String → HttpResponse

/-- src/index.js:34-134, the body of the `try` after validation: download,
transcribe, summarize, persist, build the success response.  Returns the
thrown message or the response, with the event trace accumulated so far. -/
def runPipeline (entryId audioUrl : String) (w : World) :
    Except String HttpResponse × List Event :=
  let ev0 := [Event.fetchAudio audioUrl]
  match w.fetch with
  | Except.error m => (Except.error m, ev0)
  | Except.ok audioRes =>
    if audioRes.ok = false then
      (Except.error ("Failed to download audio: " ++ toString audioRes.status), ev0)
    else
      let tempPath := "temp_" ++ entryId ++ ".webm"
      let ev1 := ev0 ++ [Event.fileWrite tempPath, Event.whisperCall tempPath]
      match w.whisper with
      | Except.error m => (Except.error m, ev1)
      | Except.ok transcript =>
        let ev2 := ev1 ++ [Event.fileUnlink tempPath]
        let ttext := transcriptText transcript
        let ev3 := ev2 ++ [Event.geminiCall]
        match w.gemini with
        | Except.error m => (Except.error m, ev3)
        | Except.ok g =>
          if g.ok = false then
            (Except.error ("Gemini API failed: " ++ toString g.status), ev3)
          else
            match computeResponseText g.body with
            | Except.error m => (Except.error m, ev3)
            | Except.ok responseText =>
              match computeParsed responseText ttext with
              | Except.error m => (Except.error m, ev3)
              | Except.ok parsed =>
                let s := jsGetField parsed "summary"
                let ins := jsGetField parsed "insights"
                let ev4 := ev3 ++
                  [Event.updateCompleted entryId ttext s ins w.updateCompleted.isNone]
                match w.updateCompleted with
                | some errMsg => (Except.error errMsg, ev4)
                | none =>
                  match transcriptLength transcript with
                  | Except.error m => (Except.error m, ev4)
                  | Except.ok tlen =>
                    match jsLength s with
                    | Except.error m => (Except.error m, ev4)
                    | Except.ok slen =>
                      (Except.ok (HttpResponse.ok200 true tlen slen), ev4)

/-- The `POST /process` handler (src/index.js:24-154): validation, then the
pipeline inside `try`; the `catch` does a best-effort `status = "failed"`
update (its own error swallowed) and answers
`500 {error: "processing_failed", details}`. -/
def handler (req : Request) (w : World) : HttpResponse × List Event :=
  if truthy req.entry_id && truthy req.audio_url then
    match runPipeline (req.entry_id.getD "") (req.audio_url.getD "") w with
    | (Except.ok resp, es) => (resp, es)
    | (Except.error m, es) =>
      (HttpResponse.serverError "processing_failed" m,
        es ++ [Event.updateFailedStatus req.entry_id w.updateFailed.isNone])
  else
    (HttpResponse.badRequest "entry_id and audio_url required", [])

/-- An `entries` row, restricted to the fields this worker touches. -/
structure EntryRecord : Type where
  transcript : Option String
  summary : Option JValue
  key_insights : Option JValue
  status : String

/-- The `entries` table, keyed by id. -/
def Store : Type := String → Option EntryRecord

/-- Effect of one event on the store.  An update the store rejected (flag
`false`) changes nothing; an update of a missing row matches zero rows; a
`summary`/`key_insights` value that was JavaScript `undefined` is dropped
from the update payload, leaving the column unchanged. -/
def applyEvent (st : Store) : Event → Store
  | Event.updateCompleted id t s ins ok =>
    if ok then
      fun k =>
        if k = id then
          match st k with
          | some r =>
            some { transcript := some t,
                   summary := match s with | some v => some v | none => r.summary,
                   key_insights := match ins with | some v => some v | none => r.key_insights,
                   status := "completed" }
          | none => none
        else st k
    else st
  | Event.updateFailedStatus oid ok =>
    if ok then
      fun k =>
        match oid with
        | some id =>
          if k = id then
            match st k with
            | some r => some { r with status := "failed" }
            | none => none
          else st k
        | none => st k
    else st
  | _ => st

/-- Replay a trace on the store. -/
def applyEvents (st : Store) (es : List Event) : Store :=
  es.foldl applyEvent st

/-- Is the event a temp-file removal? -/
def isUnlinkEvent : Event → Bool
  | Event.fileUnlink _ => true
  | _ => false

/-- Is the event a temp-file write? -/
def isWriteEvent : Event → Bool
  | Event.fileWrite _ => true
  | _ => false

/-- A Gemini response body whose first candidate carries the answer
`text`, the shape the optional chain of src/index.js:99 expects. -/
def mkGeminiBody (text : String) : JValue :=
  JValue.obj [("candidates", JValue.arr [JValue.obj [("content",
    JValue.obj [("parts", JValue.arr [JValue.obj [("text", JValue.str text)]])])]])]

/-- The concrete job of the end-to-end scenario. -/
def reqE1 : Request := ⟨some "e1", some "http://a/x.webm", none⟩

/-- The Gemini answer of the end-to-end scenario. -/
def answerOk : String :=
  "\x7b\"summary\":\"A positive day.\",\"insights\":[\"gratitude\"]\x7d"

/-- World of the end-to-end success scenario: download succeeds, whisper
returns a plain string, Gemini answers with valid JSON, the store accepts
both updates. -/
def worldOk : World :=
  { fetch := Except.ok ⟨true, 200⟩,
    whisper := Except.ok (WhisperOut.str "I had a good day today"),
    gemini := Except.ok ⟨true, 200, mkGeminiBody answerOk⟩,
    updateCompleted := none,
    updateFailed := none }

/-- Same scenario, but the summarization API answers HTTP 500. -/
def worldGemini500 : World :=
  { worldOk with gemini := Except.ok ⟨false, 500, JValue.null⟩ }

/-- Same scenario, but whisper rejects. -/
def worldWhisperFail : World :=
  { worldOk with whisper := Except.error "whisper crashed" }

/-- Same scenario, but the Gemini answer parses to an object with no
`summary` field. -/
def worldNoSummary : World :=
  { worldOk with
    gemini := Except.ok ⟨true, 200, mkGeminiBody "\x7b\"insights\":[\"a\"]\x7d"⟩ }

/-- Same scenario, but the Gemini answer has a brace-delimited region that
is not valid JSON. -/
def worldBadJson : World :=
  { worldOk with
    gemini := Except.ok ⟨true, 200, mkGeminiBody "\x7bnot json\x7d"⟩ }

/-- A store holding the single pending entry `e1`. -/
def storePending : Store :=
  fun k => if k = "e1" then some ⟨none, none, none, "pending"⟩ else none

/-- The brace-delimited JSON object of the summary-extraction property. -/
def answerSX : String := "\x7b\"summary\":\"S\",\"insights\":[\"x\",\"y\"]\x7d"

/-- Its parse. -/
def parsedSX : JValue :=
  JValue.obj [("summary", JValue.str "S"),
    ("insights", JValue.arr [JValue.str "x", JValue.str "y"])]

/-- The status a store-update event writes, if any. -/
def eventStatus : Event → Option String
  | Event.updateCompleted _ _ _ _ _ => some "completed"
  | Event.updateFailedStatus _ _ => some "failed"
  | _ => none

/-! Lemmas about the first/last-occurrence indices behind the greedy regex
match model. -/

lemma take_append_len (l t : List Char) : (l ++ t).take l.length = l := by
  simp

lemma drop_append_len (l t : List Char) : (l ++ t).drop l.length = t := by
  simp

lemma firstIdxOf_append_not_mem (c : Char) (l s : List Char) (h : c ∉ l) :
    firstIdxOf c (l ++ s) = (firstIdxOf c s).map (· + l.length) := by
  induction l with
  | nil => simp [Option.map_id]
  | cons a as ih =>
    have ha : a ≠ c := by
      intro hac
      exact h (hac ▸ List.mem_cons_self a as)
    have has : c ∉ as := fun hm => h (List.mem_cons_of_mem a hm)
    simp only [List.cons_append, firstIdxOf, List.append_eq, if_neg ha,
      ih has, List.length_cons]
    cases firstIdxOf c s with
    | none => rfl
    | some k => simp [Nat.add_assoc]

lemma firstIdxOf_append_some (c : Char) (s t : List Char) (k : Nat)
    (h : firstIdxOf c s = some k) :
    firstIdxOf c (s ++ t) = some k := by
  induction s generalizing k with
  | nil => simp [firstIdxOf] at h
  | cons a as ih =>
    by_cases hac : a = c
    · simp only [firstIdxOf, if_pos hac] at h
      simp only [List.cons_append, firstIdxOf, List.append_eq, if_pos hac]
      exact h
    · simp only [firstIdxOf, if_neg hac] at h
      cases hk : firstIdxOf c as with
      | none => rw [hk] at h; simp at h
      | some k0 =>
        rw [hk] at h
        simp only [Option.map_some'] at h
        simp only [List.cons_append, firstIdxOf, List.append_eq, if_neg hac,
          ih k0 hk, Option.map_some']
        exact h

lemma lastIdxOf_eq_none_not_mem (c : Char) (l : List Char) (h : c ∉ l) :
    lastIdxOf c l = none := by
  induction l with
  | nil => rfl
  | cons a as ih =>
    have ha : a ≠ c := by
      intro hac
      exact h (hac ▸ List.mem_cons_self a as)
    have has : c ∉ as := fun hm => h (List.mem_cons_of_mem a hm)
    simp [lastIdxOf, ih has, if_neg ha]

lemma lastIdxOf_append_not_mem (c : Char) (s t : List Char) (h : c ∉ t) :
    lastIdxOf c (s ++ t) = lastIdxOf c s := by
  induction s with
  | nil => simp [lastIdxOf_eq_none_not_mem c t h, lastIdxOf]
  | cons a as ih =>
    simp only [List.cons_append, lastIdxOf, List.append_eq, ih]

lemma lastIdxOf_append_left (c : Char) (l s : List Char) (k : Nat)
    (h : lastIdxOf c s = some k) :
    lastIdxOf c (l ++ s) = some (l.length + k) := by
  induction l with
  | nil => simpa using h
  | cons a as ih =>
    simp only [List.cons_append, lastIdxOf, List.append_eq, ih,
      List.length_cons]
    congr 1
    omega

/-- The greedy match `/\x7b[\s\S]*\x7d/` on a well-bracketed object
embedded in brace-free surrounding text recovers exactly the object. -/
lemma jsonMatchExtract_embed (pre obj post : List Char)
    (hpre : lbrace ∉ pre) (hpost : rbrace ∉ post)
    (hfirst : firstIdxOf lbrace obj = some 0)
    (hlast : lastIdxOf rbrace obj = some (obj.length - 1))
    (hlen : 2 ≤ obj.length) :
    jsonMatchExtract (pre ++ obj ++ post) = some obj := by
  have h1 : firstIdxOf lbrace (pre ++ obj ++ post) = some pre.length := by
    rw [List.append_assoc, firstIdxOf_append_not_mem lbrace pre (obj ++ post) hpre,
      firstIdxOf_append_some lbrace obj post 0 hfirst]
    simp
  have h2 : lastIdxOf rbrace (pre ++ obj ++ post) =
      some (pre.length + (obj.length - 1)) := by
    rw [lastIdxOf_append_not_mem rbrace (pre ++ obj) post hpost,
      lastIdxOf_append_left rbrace pre obj (obj.length - 1) hlast]
  have hlt : pre.length < pre.length + (obj.length - 1) := by omega
  have hdrop : List.drop pre.length (pre ++ obj ++ post) = obj ++ post := by
    rw [List.append_assoc]
    exact drop_append_len pre (obj ++ post)
  have harith : pre.length + (obj.length - 1) + 1 - pre.length = obj.length := by
    omega
  simp only [jsonMatchExtract, h1, h2, if_pos hlt, hdrop, harith,
    take_append_len]

/-- The `entries` row the end-to-end scenario is expected to produce. -/
def entryCompletedE1 : EntryRecord :=
  ⟨some "I had a good day today", some (JValue.str "A positive day."),
   some (JValue.arr [JValue.str "gratitude"]), "completed"⟩

/-- A previously completed row with stale fields, for the reprocessing
claim. -/
def entryOld : EntryRecord :=
  ⟨some "old transcript", some (JValue.str "old summary"),
   some (JValue.arr []), "completed"⟩

/-- Claim C2: transcript normalization.  A segment list is concatenated
with single-space separators through the speech-or-text fields
(`[\x7bspeech:"a"\x7d,\x7bspeech:"b"\x7d]` yields `"a b"`), a plain string
is returned unchanged (`"hello"` yields `"hello"`), and any other shape is
coerced with `JSON.stringify`. -/
theorem c2_transcript_normalization :
    transcriptText (WhisperOut.arr [⟨some "a", none⟩, ⟨some "b", none⟩]) = "a b" ∧
    (∀ segs : List Segment, transcriptText (WhisperOut.arr segs) =
      String.intercalate " " (segs.map segPiece)) ∧
    (∀ s : String, transcriptText (WhisperOut.str s) = s) ∧
    transcriptText (WhisperOut.str "hello") = "hello" ∧
    (∀ v : JValue, transcriptText (WhisperOut.other v) = jsonStringify v) :=
  ⟨rfl, fun _ => rfl, fun _ => rfl, rfl, fun _ => rfl⟩

/-- Claim C2, instantiated at a concrete plain-string output. -/
theorem c2_witness : transcriptText (WhisperOut.str "hi") = "hi" :=
  c2_transcript_normalization.2.2.1 "hi"

/-- Claim C3: a request missing `entry_id` or `audio_url` gets the 400
client error and the invocation performs no network, file or store work
(the event trace is empty). -/
theorem c3_validation (req : Request) (w : World)
    (h : req.entry_id = none ∨ req.audio_url = none) :
    handler req w =
      (HttpResponse.badRequest "entry_id and audio_url required", []) := by
  unfold handler
  rcases h with h | h <;> simp [h, truthy]

/-- Claim C3 at a concrete request with no `entry_id`. -/
theorem c3_witness :
    handler ⟨none, some "http://a/x.webm", none⟩ worldOk =
      (HttpResponse.badRequest "entry_id and audio_url required", []) :=
  c3_validation ⟨none, some "http://a/x.webm", none⟩ worldOk (Or.inl rfl)

/-- Claim C6 (code bug): when whisper itself rejects, the temp file written
for the entry is never unlinked — the trace has the `fileWrite` but no
`fileUnlink`, because `fs.unlinkSync` (line 57) only runs after a
successful `await whisper(...)` and the catch block does not clean up. -/
theorem c6_temp_file_leak :
    handler reqE1 worldWhisperFail =
      (HttpResponse.serverError "processing_failed" "whisper crashed",
       [Event.fetchAudio "http://a/x.webm", Event.fileWrite "temp_e1.webm",
        Event.whisperCall "temp_e1.webm",
        Event.updateFailedStatus (some "e1") true]) ∧
    (handler reqE1 worldWhisperFail).2.any isWriteEvent = true ∧
    (handler reqE1 worldWhisperFail).2.any isUnlinkEvent = false :=
  ⟨rfl, rfl, rfl⟩

/-- Claim C7 (as written) is false: in the end-to-end scenario the handler
answers `transcript_length = 22` — the length of
`"I had a good day today"` — not 24. -/
theorem c7_counterexample :
    (handler reqE1 worldOk).1 = HttpResponse.ok200 true (some 22) (some 15) ∧
    HttpResponse.ok200 true (some 22) (some 15) ≠
      HttpResponse.ok200 true (some 24) (some 15) ∧
    ("I had a good day today").length = 22 :=
  ⟨rfl, by simp, rfl⟩

/-- Claim C7 (amended): the end-to-end scenario stores
transcript/summary/insights with status completed and answers
`200 \x7bsuccess, transcript_length: 22, summary_length: 15\x7d`. -/
theorem c7_end_to_end :
    handler reqE1 worldOk = (HttpResponse.ok200 true (some 22) (some 15),
      [Event.fetchAudio "http://a/x.webm", Event.fileWrite "temp_e1.webm",
       Event.whisperCall "temp_e1.webm", Event.fileUnlink "temp_e1.webm",
       Event.geminiCall,
       Event.updateCompleted "e1" "I had a good day today"
         (some (JValue.str "A positive day."))
         (some (JValue.arr [JValue.str "gratitude"])) true]) ∧
    applyEvents storePending (handler reqE1 worldOk).2 "e1" =
      some entryCompletedE1 :=
  ⟨rfl, rfl⟩

/-- Claim C10: a 200 Gemini response whose JSON parses but has no `summary`
field makes the handler first persist status completed (with the summary
column dropped), then throw while reading `parsed.summary.length`, then
overwrite the status to failed and answer 500 — one invocation writes
completed and then failed. -/
theorem c10_completed_then_failed :
    handler reqE1 worldNoSummary =
      (HttpResponse.serverError "processing_failed"
         "Cannot read properties of undefined (reading length)",
       [Event.fetchAudio "http://a/x.webm", Event.fileWrite "temp_e1.webm",
        Event.whisperCall "temp_e1.webm", Event.fileUnlink "temp_e1.webm",
        Event.geminiCall,
        Event.updateCompleted "e1" "I had a good day today" none
          (some (JValue.arr [JValue.str "a"])) true,
        Event.updateFailedStatus (some "e1") true]) ∧
    ((applyEvents storePending ((handler reqE1 worldNoSummary).2.take 6)) "e1").map
      EntryRecord.status = some "completed" ∧
    ((applyEvents storePending (handler reqE1 worldNoSummary).2) "e1").map
      EntryRecord.status = some "failed" :=
  ⟨rfl, rfl, rfl⟩

lemma string_mk_data (l : List Char) : (String.mk l).data = l := rfl

/-- Claim C1 (as written) is false: a response text whose brace-delimited
region is not valid JSON does not fall back to the truncated transcript —
`JSON.parse` throws (line 103 only guards a missing match, not a parse
failure), so the invocation ends in the 500 path with no summary at all. -/
theorem c1_counterexample :
    jsonMatchExtract ("\x7bnot json\x7d").data = some ("\x7bnot json\x7d").data ∧
    computeParsed "\x7bnot json\x7d" "hello transcript" =
      Except.error "Unexpected token in JSON" ∧
    handler reqE1 worldBadJson =
      (HttpResponse.serverError "processing_failed" "Unexpected token in JSON",
       [Event.fetchAudio "http://a/x.webm", Event.fileWrite "temp_e1.webm",
        Event.whisperCall "temp_e1.webm", Event.fileUnlink "temp_e1.webm",
        Event.geminiCall, Event.updateFailedStatus (some "e1") true]) :=
  ⟨rfl, rfl, rfl⟩

/-- Claim C1 (amended): a response text carrying
`\x7b"summary":"S","insights":["x","y"]\x7d` inside brace-free prose parses
to summary `"S"` and insights `["x","y"]`; when extraction fails (the text
has no brace-delimited region) the summary falls back to the first 200
characters of the transcript with an empty insight list; a region that
fails to parse instead propagates as an error (the uniform 500 path). -/
theorem c1_summary_extraction :
    (∀ pre post : List Char, ∀ transcript : String,
      lbrace ∉ pre → rbrace ∉ post →
      computeParsed (String.mk (pre ++ answerSX.data ++ post)) transcript =
        Except.ok parsedSX) ∧
    jsGetField parsedSX "summary" = some (JValue.str "S") ∧
    jsGetField parsedSX "insights" =
      some (JValue.arr [JValue.str "x", JValue.str "y"]) ∧
    (∀ responseText transcript : String,
      jsonMatchExtract responseText.data = none →
      computeParsed responseText transcript =
        Except.ok (JValue.obj
          [("summary", JValue.str (jsSlice200 transcript)),
           ("insights", JValue.arr [])])) := by
  refine ⟨?_, rfl, rfl, ?_⟩
  · intro pre post transcript hpre hpost
    have hm := jsonMatchExtract_embed pre answerSX.data post hpre hpost rfl rfl
      (by decide)
    simp only [computeParsed, string_mk_data]
    rw [hm]
    rfl
  · intro responseText transcript h
    simp only [computeParsed, h]

/-- Claim C1, instantiated: the object inside concrete prose, and a
concrete no-JSON response falling back. -/
theorem c1_witness :
    computeParsed (String.mk (("Sure! ").data ++ answerSX.data ++ (" done").data))
      "tr" = Except.ok parsedSX ∧
    computeParsed "no json here" "hello" =
      Except.ok (JValue.obj
        [("summary", JValue.str (jsSlice200 "hello")),
         ("insights", JValue.arr [])]) :=
  ⟨c1_summary_extraction.1 ("Sure! ").data (" done").data "tr" (by decide)
     (by decide),
   c1_summary_extraction.2.2.2 "no json here" "hello" (by rfl)⟩

/-- Claim C4: whenever the pipeline body throws (any of download,
transcribe, summarize or persist), the handler attempts the best-effort
`status = "failed"` update and answers 500 with error `processing_failed`
and the original message as details, whatever the failure kind was. -/
theorem c4_uniform_failure (req : Request) (w : World) (m : String)
    (es : List Event)
    (h1 : truthy req.entry_id = true) (h2 : truthy req.audio_url = true)
    (h3 : runPipeline (req.entry_id.getD "") (req.audio_url.getD "") w =
      (Except.error m, es)) :
    handler req w = (HttpResponse.serverError "processing_failed" m,
      es ++ [Event.updateFailedStatus req.entry_id w.updateFailed.isNone]) := by
  unfold handler
  simp [h1, h2, h3]

/-- Claim C4 at the spec scenario: Gemini answers HTTP 500 and the caller
sees `500 processing_failed` with details `Gemini API failed: 500`, after
the failed-status update. -/
theorem c4_witness :
    handler reqE1 worldGemini500 =
      (HttpResponse.serverError "processing_failed" "Gemini API failed: 500",
       [Event.fetchAudio "http://a/x.webm", Event.fileWrite "temp_e1.webm",
        Event.whisperCall "temp_e1.webm", Event.fileUnlink "temp_e1.webm",
        Event.geminiCall, Event.updateFailedStatus (some "e1") true]) :=
  c4_uniform_failure reqE1 worldGemini500 "Gemini API failed: 500"
    [Event.fetchAudio "http://a/x.webm", Event.fileWrite "temp_e1.webm",
     Event.whisperCall "temp_e1.webm", Event.fileUnlink "temp_e1.webm",
     Event.geminiCall] rfl rfl rfl

lemma applyEvent_status (st : Store) (e : Event) (k : String)
    (r1 : EntryRecord) (h : applyEvent st e k = some r1) :
    (∃ r0, st k = some r0 ∧ r1.status = r0.status) ∨
      r1.status = "completed" ∨ r1.status = "failed" := by
  cases e with
  | updateCompleted id t s ins ok =>
    cases ok with
    | false => exact Or.inl ⟨r1, by simpa [applyEvent] using h, rfl⟩
    | true =>
      simp only [applyEvent, if_true] at h
      split_ifs at h with hk
      · cases hst : st k with
        | none => rw [hst] at h; exact absurd h (by simp)
        | some r0 =>
          rw [hst] at h
          right; left
          rw [← Option.some.inj h]
      · exact Or.inl ⟨r1, h, rfl⟩
  | updateFailedStatus oid ok =>
    cases ok with
    | false => exact Or.inl ⟨r1, by simpa [applyEvent] using h, rfl⟩
    | true =>
      cases oid with
      | none => exact Or.inl ⟨r1, by simpa [applyEvent] using h, rfl⟩
      | some id =>
        simp only [applyEvent, if_true] at h
        split_ifs at h with hk
        · cases hst : st k with
          | none => rw [hst] at h; exact absurd h (by simp)
          | some r0 =>
            rw [hst] at h
            right; right
            rw [← Option.some.inj h]
        · exact Or.inl ⟨r1, h, rfl⟩
  | fetchAudio u => exact Or.inl ⟨r1, by simpa [applyEvent] using h, rfl⟩
  | fileWrite p => exact Or.inl ⟨r1, by simpa [applyEvent] using h, rfl⟩
  | whisperCall p => exact Or.inl ⟨r1, by simpa [applyEvent] using h, rfl⟩
  | fileUnlink p => exact Or.inl ⟨r1, by simpa [applyEvent] using h, rfl⟩
  | geminiCall => exact Or.inl ⟨r1, by simpa [applyEvent] using h, rfl⟩

lemma applyEvents_status (es : List Event) :
    ∀ (st : Store) (k : String) (r1 : EntryRecord),
      applyEvents st es k = some r1 →
      (∃ r0, st k = some r0 ∧ r1.status = r0.status) ∨
        r1.status = "completed" ∨ r1.status = "failed" := by
  induction es with
  | nil => exact fun st k r1 h => Or.inl ⟨r1, h, rfl⟩
  | cons e es ih =>
    intro st k r1 h
    have h2 : applyEvents (applyEvent st e) es k = some r1 := h
    rcases ih (applyEvent st e) k r1 h2 with ⟨r0, hr0, hs⟩ | hx
    · rcases applyEvent_status st e k r0 hr0 with ⟨rr, hrr, hss⟩ | hy
      · exact Or.inl ⟨rr, hrr, hs.trans hss⟩
      · exact Or.inr (by rw [hs]; exact hy)
    · exact Or.inr hx

/-- Claim C5 (as written) is false: a failed entry is not terminal.  After
a failing invocation marks `e1` failed, a second invocation of the same
endpoint overwrites it to completed. -/
theorem c5_counterexample :
    (applyEvents storePending (handler reqE1 worldGemini500).2 "e1").map
      EntryRecord.status = some "failed" ∧
    (applyEvents (applyEvents storePending (handler reqE1 worldGemini500).2)
        (handler reqE1 worldOk).2 "e1").map
      EntryRecord.status = some "completed" :=
  ⟨rfl, rfl⟩

/-- Claim C5 (amended): every status this component writes is `completed`
or `failed` — a surviving record either keeps its prior status or holds one
of those two; the worker never writes `pending` or anything else.  But
neither outcome is terminal: any later invocation overwrites the status
unconditionally (see the counterexample), and the no-summary path even
writes completed then failed within one invocation. -/
theorem c5_status_writes (req : Request) (w : World) (st : Store)
    (k : String) (r1 : EntryRecord)
    (h : applyEvents st (handler req w).2 k = some r1) :
    (∃ r0, st k = some r0 ∧ r1.status = r0.status) ∨
      r1.status = "completed" ∨ r1.status = "failed" :=
  applyEvents_status (handler req w).2 st k r1 h

/-- Claim C5, instantiated on the end-to-end scenario trace. -/
theorem c5_witness :
    (∃ r0, storePending "e1" = some r0 ∧
        entryCompletedE1.status = r0.status) ∨
      entryCompletedE1.status = "completed" ∨
      entryCompletedE1.status = "failed" :=
  c5_status_writes reqE1 worldOk storePending "e1" entryCompletedE1 rfl

lemma runPipeline_updateFailed_irrel (a b : String) (w : World)
    (x : Option String) :
    runPipeline a b { w with updateFailed := x } = runPipeline a b w := by
  cases w
  rfl

/-- Claim C8: the catch-path failed-status update is isolated — whatever it
returns or throws, the HTTP response (the original 500 with the primary
message) is unchanged. -/
theorem c8_secondary_failure_isolated (req : Request) (w : World)
    (x : Option String) :
    (handler req { w with updateFailed := x }).1 = (handler req w).1 := by
  unfold handler
  rw [runPipeline_updateFailed_irrel]
  by_cases hc : (truthy req.entry_id && truthy req.audio_url) = true
  · simp only [hc, if_true]
    cases hrp : runPipeline (req.entry_id.getD "") (req.audio_url.getD "") w with
    | mk res es => cases res <;> simp
  · simp [hc]

/-- Claim C8, instantiated: even when the failed-status update itself
errors, the caller still gets the original Gemini failure. -/
theorem c8_witness :
    (handler reqE1 { worldGemini500 with updateFailed := some "db down" }).1 =
      HttpResponse.serverError "processing_failed" "Gemini API failed: 500" :=
  (c8_secondary_failure_isolated reqE1 worldGemini500 (some "db down")).trans rfl

/-- Claim C9: no reprocessing guard.  The handler never consults the prior
row (its model takes no store input at all); whatever record — completed
included — is already stored for `e1`, re-invoking the pipeline runs every
step again and overwrites transcript, summary, key_insights and status. -/
theorem c9_no_reprocessing_guard (r : EntryRecord) :
    (handler reqE1 worldOk).2 =
      [Event.fetchAudio "http://a/x.webm", Event.fileWrite "temp_e1.webm",
       Event.whisperCall "temp_e1.webm", Event.fileUnlink "temp_e1.webm",
       Event.geminiCall,
       Event.updateCompleted "e1" "I had a good day today"
         (some (JValue.str "A positive day."))
         (some (JValue.arr [JValue.str "gratitude"])) true] ∧
    applyEvents (fun k => if k = "e1" then some r else none)
      (handler reqE1 worldOk).2 "e1" = some entryCompletedE1 :=
  ⟨rfl, rfl⟩

/-- Claim C9, instantiated at a stale completed record. -/
theorem c9_witness :
    applyEvents (fun k => if k = "e1" then some entryOld else none)
      (handler reqE1 worldOk).2 "e1" = some entryCompletedE1 :=
  (c9_no_reprocessing_guard entryOld).2
